import Mathlib

/-!
Verification of the Audio-Meter-Monitor core: fingerprint extraction,
similarity scoring, and the debounced per-tick detection step, shallowly
embedded from the repository sources (src/App.tsx, src/index.tsx,
src/index.js, src/unnamed/part_000).

Numbers the JavaScript code manipulates with exact rational/real arithmetic
are modelled as such; the places where IEEE special values (NaN, Infinity)
can arise in the source are modelled explicitly.
-/

namespace AudioMeter

/-- A detection event as emitted by the tick loop: the wall-clock timestamp
(`Date.now()`, in milliseconds) and the distance at trigger.
From `handleDetection` in src/App.tsx and the inline record in
src/index.tsx (`loop`) / src/index.js (`handleMatch`). -/
structure DetectionRecord where
  timestamp : ℚ
  distance : ℚ
deriving Repr, DecidableEq

/-- The per-tick detection conditional of src/App.tsx lines 108-112 and
src/index.tsx lines 208-214:

  if (distance <= settings.threshold
      && (now - lastDetectionTime) > settings.cooldownSeconds * 1000) {
    handleDetection(distance); setLastDetectionTime(now);
  }

Returns the optional emitted event together with the new value of the
last-detection timestamp. `cds` is `cooldownSeconds`. -/
def detectStep (threshold cds : ℚ) (distance now last : ℚ) :
    Option DetectionRecord × ℚ :=
  if distance ≤ threshold ∧ now - last > cds * 1000 then
    (some ⟨now, distance⟩, now)
  else
    (none, last)

/-- The cosine-distance scorer of src/index.tsx lines 97-104 (and the
identically structured guarded variant at src/unnamed/part_000 lines 88-97):
mismatched lengths return the sentinel 1.0, otherwise
`1 - clamp(dot(f1, f2), 0, 1)`. -/
def compareTsx (f1 f2 : List ℚ) : ℚ :=
  if f1.length ≠ f2.length then 1
  else 1 - max 0 (min 1 ((List.zipWith (· * ·) f1 f2).sum))

/-- The unguarded scorer of src/index.js lines 92-97: it loops over
`f1.length` indices with no length check.  When `f1` is longer than `f2`
some access `f2[i]` is `undefined` and the dot product (hence the result)
is NaN, modelled as `none`; otherwise the result is the rational
`1 - clamp(dot, 0, 1)` where the dot product only runs over the first
`f1.length` entries. -/
def compareJs (f1 f2 : List ℚ) : Option ℚ :=
  if f1.length ≤ f2.length then
    some (1 - max 0 (min 1 ((List.zipWith (· * ·) f1 (f2.take f1.length)).sum)))
  else
    none

/-- The per-tick distance of src/App.tsx lines 92-95 / src/index.tsx lines
196-199: `let distance = 1.0; if (settings.referenceFingerprint) distance =
compare(reference, currentFingerprint)`. -/
def distanceOf (ref : Option (List ℚ)) (fp : List ℚ) : ℚ :=
  match ref with
  | none => 1
  | some r => compareTsx r fp

/-- One full detection tick of src/App.tsx `tick` / src/index.tsx `loop`:
the distance is computed from the stored reference and the current
fingerprint, then fed to the detection conditional. -/
def tickApp (threshold cds : ℚ) (ref : Option (List ℚ)) (fp : List ℚ)
    (now last : ℚ) : Option DetectionRecord × ℚ :=
  detectStep threshold cds (distanceOf ref fp) now last

/-- The per-tick detection step of src/index.js `process` (lines 195-227):
the distance defaults to 1 when `config.fingerprint` is null, the scorer is
the unguarded `compare`, and the trigger condition is
`dist > config.threshold && (now - lastMatchAt) > config.cooldown * 1000`
(match-above direction).  A NaN distance (`none`) fails every comparison. -/
def processIndexJs (threshold cooldown : ℚ) (fingerprint : Option (List ℚ))
    (currentFp : List ℚ) (now last : ℚ) : Option DetectionRecord × ℚ :=
  let dist : Option ℚ :=
    match fingerprint with
    | none => some 1
    | some r => compareJs r currentFp
  match dist with
  | none => (none, last)
  | some d =>
      if d > threshold ∧ now - last > cooldown * 1000 then
        (some ⟨now, d⟩, now)
      else
        (none, last)

/-- Runs the detection conditional over a stream of `(now, distance)` ticks,
threading the last-detection timestamp exactly as the React state
`lastDetectionTime` is threaded through successive `tick` calls; returns
the emitted events in tick order and the final timestamp. -/
def runDetect (threshold cds : ℚ) (ins : List (ℚ × ℚ)) (last : ℚ) :
    List DetectionRecord × ℚ :=
  match ins with
  | [] => ([], last)
  | (now, dist) :: rest =>
      let r := detectStep threshold cds dist now last
      let rr := runDetect threshold cds rest r.2
      (r.1.toList ++ rr.1, rr.2)

/-- Each event in the list is strictly more than `c` after the previous
trigger time, starting from trigger time `last`. -/
def spacedFrom (c last : ℚ) : List DetectionRecord → Prop
  | [] => True
  | e :: rest => e.timestamp - last > c ∧ spacedFrom c e.timestamp rest

lemma runDetect_spaced (threshold cds : ℚ) (ins : List (ℚ × ℚ)) :
    ∀ last, spacedFrom (cds * 1000) last (runDetect threshold cds ins last).1 := by
  induction ins with
  | nil => intro last; simp [runDetect, spacedFrom]
  | cons hd tl ih =>
      intro last
      obtain ⟨now, dist⟩ := hd
      by_cases h : dist ≤ threshold ∧ now - last > cds * 1000
      · simp only [runDetect, detectStep, if_pos h, Option.toList_some,
          List.singleton_append]
        exact ⟨h.2, ih now⟩
      · simpa [runDetect, detectStep, h, spacedFrom] using ih last

lemma runDetect_cons_pos (threshold cds dist now last : ℚ)
    (rest : List (ℚ × ℚ)) (h : dist ≤ threshold ∧ now - last > cds * 1000) :
    runDetect threshold cds ((now, dist) :: rest) last =
      ((⟨now, dist⟩ : DetectionRecord) :: (runDetect threshold cds rest now).1,
        (runDetect threshold cds rest now).2) := by
  simp [runDetect, detectStep, h]

lemma runDetect_cons_neg (threshold cds dist now last : ℚ)
    (rest : List (ℚ × ℚ)) (h : ¬(dist ≤ threshold ∧ now - last > cds * 1000)) :
    runDetect threshold cds ((now, dist) :: rest) last =
      runDetect threshold cds rest last := by
  simp [runDetect, detectStep, h]

/-- Claim C1: while a reference is set, the detection step emits at most one
event per cooldown window (each emitted event is strictly more than
cooldownMs after the previous trigger time, starting from the recorded
last-trigger time), and on the distance stream
[0.9, 0.9, 0.1, 0.1, 0.1, 0.9] at 200 ms per tick with threshold 0.5,
match-below direction, and cooldownSeconds 1 (cooldownMs 1000), exactly one
event fires, at tick index 2 — for any session start time t0 at least
1000 ms after the epoch (as every real `Date.now()` is). -/
theorem claim_C1_one_event_per_cooldown :
    (∀ threshold cds : ℚ, ∀ ins : List (ℚ × ℚ), ∀ last : ℚ,
        spacedFrom (cds * 1000) last (runDetect threshold cds ins last).1) ∧
    (∀ t0 : ℚ, 1000 ≤ t0 →
        (runDetect (1/2) 1
            [(t0, 9/10), (t0 + 200, 9/10), (t0 + 400, 1/10),
             (t0 + 600, 1/10), (t0 + 800, 1/10), (t0 + 1000, 9/10)] 0).1 =
          [⟨t0 + 400, 1/10⟩]) := by
  constructor
  · intro threshold cds ins last
    exact runDetect_spaced threshold cds ins last
  · intro t0 ht
    have hq : ¬((9:ℚ)/10 ≤ 1/2) := by norm_num
    rw [runDetect_cons_neg _ _ _ _ _ _ (fun hc => hq hc.1),
        runDetect_cons_neg _ _ _ _ _ _ (fun hc => hq hc.1),
        runDetect_cons_pos _ _ _ _ _ _ ⟨by norm_num, by linarith⟩,
        runDetect_cons_neg _ _ _ _ _ _ (fun hc => by linarith [hc.2]),
        runDetect_cons_neg _ _ _ _ _ _ (fun hc => by linarith [hc.2]),
        runDetect_cons_neg _ _ _ _ _ _ (fun hc => hq hc.1)]
    simp [runDetect]

theorem claim_C1_one_event_per_cooldown_witness :
    spacedFrom (1 * 1000) 0
        (runDetect (1/2) 1 [(2000, 1/10), (2200, 1/10), (3500, 1/10)] 0).1 ∧
      (runDetect (1/2) 1
          [(2000, 9/10), (2000 + 200, 9/10), (2000 + 400, 1/10),
           (2000 + 600, 1/10), (2000 + 800, 1/10), (2000 + 1000, 9/10)] 0).1 =
        [⟨2000 + 400, 1/10⟩] :=
  ⟨claim_C1_one_event_per_cooldown.1 (1/2) 1
      [(2000, 1/10), (2200, 1/10), (3500, 1/10)] 0,
    claim_C1_one_event_per_cooldown.2 2000 (by norm_num)⟩

/-- Claim C2 (code bug): the src/index.js `process` step emits a
DetectionEvent although `config.fingerprint` is null.  With no reference the
distance defaults to 1, the trigger direction is `dist > threshold`, and at
the default configuration (threshold 0.15, cooldown 1.5 s) the very first
tick of a live session fires an event — detection is not disabled when no
reference is set. -/
theorem claim_C2_indexjs_emits_without_reference :
    processIndexJs (3/20) (3/2) none (List.replicate 64 0) 1700000000000 0 =
      (some ⟨1700000000000, 1⟩, 1700000000000) := by
  norm_num [processIndexJs]

/-- Claim C3 counterexample: at a tick whose time is exactly
`lastTriggerTime + cooldownMs` with a qualifying distance
(0.1 ≤ threshold 0.5), the code emits nothing — the cooldown comparison in
src/App.tsx line 109 / src/index.tsx line 209 is the strict
`now - last > cooldownSeconds * 1000`, so the claimed ≥-boundary behaviour
is false. -/
theorem claim_C3_boundary_cx :
    ((2000:ℚ) - 1000 = 1 * 1000) ∧ ((1:ℚ)/10 ≤ 1/2) ∧
      (detectStep (1/2) 1 (1/10) 2000 1000).1 = none := by
  refine ⟨by norm_num, by norm_num, ?_⟩
  norm_num [detectStep]

/-- Claim C3 (amended): the re-arm boundary is strict.  A qualifying tick
with `now - lastTriggerTime > cooldownMs` emits and records the trigger
time, while a tick at exactly `now - lastTriggerTime = cooldownMs` is still
suppressed whatever its distance. -/
theorem claim_C3_strict_boundary :
    (∀ threshold cds distance now last : ℚ, distance ≤ threshold →
        now - last > cds * 1000 →
        detectStep threshold cds distance now last = (some ⟨now, distance⟩, now)) ∧
    (∀ threshold cds distance now last : ℚ, now - last = cds * 1000 →
        (detectStep threshold cds distance now last).1 = none) := by
  constructor
  · intro threshold cds distance now last h1 h2
    simp [detectStep, h1, h2]
  · intro threshold cds distance now last h
    have : ¬(distance ≤ threshold ∧ now - last > cds * 1000) := by
      rintro ⟨-, hgt⟩
      rw [h] at hgt
      exact lt_irrefl _ hgt
    simp [detectStep, this]

theorem claim_C3_strict_boundary_witness :
    detectStep (1/2) 1 (1/10) 2500 1000 = (some ⟨2500, 1/10⟩, 2500) ∧
      (detectStep (1/2) 1 (1/10) 2000 1000).1 = none :=
  ⟨claim_C3_strict_boundary.1 (1/2) 1 (1/10) 2500 1000 (by norm_num) (by norm_num),
    claim_C3_strict_boundary.2 (1/2) 1 (1/10) 2000 1000 (by norm_num)⟩

/-- Claim C5 counterexample: the unguarded src/index.js `compare` does not
return the sentinel 1.0 on a length mismatch.  For f1 = [1] (length 1) and
f2 = [1, 0] (length 2) it returns 0. -/
theorem claim_C5_mismatch_cx :
    ([(1:ℚ)].length ≠ [(1:ℚ), 0].length) ∧ compareJs [1] [1, 0] = some 0 := by
  refine ⟨by norm_num, ?_⟩
  norm_num [compareJs]

/-- Claim C5 (amended): the guarded scorers (src/index.tsx lines 97-104 and
both src/unnamed/part_000 variants) return exactly the sentinel 1.0 for every
pair of fingerprints of different lengths, and never throw (they are total);
only the src/index.js `compare` lacks the guard. -/
theorem claim_C5_guarded_sentinel :
    ∀ f1 f2 : List ℚ, f1.length ≠ f2.length → compareTsx f1 f2 = 1 := by
  intro f1 f2 h
  simp [compareTsx, h]

theorem claim_C5_guarded_sentinel_witness :
    compareTsx [(1:ℚ)] [(1:ℚ), 0] = 1 :=
  claim_C5_guarded_sentinel [1] [1, 0] (by norm_num)

/-- Claim C10: the last-trigger timestamp starts at 0 (`useState(0)` in
src/App.tsx line 45, src/index.tsx line 156), so in a fresh session the
first qualifying tick emits immediately: for every cooldown setting (the
sliders allow at most 10 s) and every tick time `now` past the first
10 000 ms of the epoch — which every real `Date.now()` is — the cooldown
test `now - 0 > cooldownSeconds * 1000` passes. -/
theorem claim_C10_first_event_not_suppressed :
    ∀ threshold cds distance now : ℚ, distance ≤ threshold → cds ≤ 10 →
      10000 < now →
      detectStep threshold cds distance now 0 = (some ⟨now, distance⟩, now) := by
  intro threshold cds distance now h1 h2 h3
  have hlt : cds * 1000 < now := by nlinarith
  simp [detectStep, h1, sub_zero, hlt]

theorem claim_C10_first_event_not_suppressed_witness :
    detectStep (1/2) (3/2) (1/10) 1700000000000 0 =
      (some ⟨1700000000000, 1/10⟩, 1700000000000) :=
  claim_C10_first_event_not_suppressed (1/2) (3/2) (1/10) 1700000000000
    (by norm_num) (by norm_num) (by norm_num)

/-! ## The fingerprint extractor

The extractor (src/index.tsx lines 79-95, identical in structure to
src/unnamed/part_000 lines 53-72 and src/index.js lines 49-62) runs in
JavaScript doubles.  Its band energies are exact real computations, but two
IEEE special values can arise: `0/0 = NaN` when the per-band `step` is zero
(frames with fewer bins than bands) and the falsy-NaN behaviour of the
`|| 1` magnitude guard.  `JsF` models the fragment of JS number semantics
these paths touch: NaN, +Infinity and finite values (negative infinities
never arise here since band energies are sums of `Math.pow(10, ·)` values). -/

/-- A JavaScript number as it flows through the extractor: NaN, +Infinity,
or a finite value modelled as an exact real. -/
inductive JsF where
  | nan : JsF
  | inf : JsF
  | fin : ℝ → JsF

/-- JS squaring `v * v` on `JsF`. -/
def jsSq : JsF → JsF
  | .nan => .nan
  | .inf => .inf
  | .fin x => .fin (x * x)

/-- JS addition on `JsF` (no negative infinities in this fragment, so
`Infinity + x` is always `Infinity` unless NaN is involved). -/
def jsAdd : JsF → JsF → JsF
  | .nan, _ => .nan
  | _, .nan => .nan
  | .inf, _ => .inf
  | _, .inf => .inf
  | .fin a, .fin b => .fin (a + b)

/-- `Math.sqrt` on `JsF`: NaN for negative arguments, NaN/Infinity pass
through. -/
noncomputable def jsSqrt : JsF → JsF
  | .nan => .nan
  | .inf => .inf
  | .fin x => if x < 0 then .nan else .fin (Real.sqrt x)

/-- The JS expression `m || 1`: NaN and 0 are falsy and replaced by 1;
any other value passes through. -/
noncomputable def jsOr1 : JsF → JsF
  | .nan => .fin 1
  | .inf => .inf
  | .fin x => if x = 0 then .fin 1 else .fin x

/-- JS division of a (possibly special) numerator by a natural divisor,
as in `sum / step`: `0/0` is NaN, `x/0` with `x ≠ 0` is Infinity. -/
noncomputable def jsDivNat (a : ℝ) (n : ℕ) : JsF :=
  if n = 0 then (if a = 0 then .nan else .inf) else .fin (a / (n : ℝ))

/-- JS division on `JsF` values, as in `v / magnitude` (nonnegative
fragment: no negative infinities arise). -/
noncomputable def jsDivF : JsF → JsF → JsF
  | .nan, _ => .nan
  | _, .nan => .nan
  | .inf, .inf => .nan
  | .inf, .fin _ => .inf
  | .fin _, .inf => .fin 0
  | .fin a, .fin b => if b = 0 then (if a = 0 then .nan else .inf) else .fin (a / b)

/-- The fingerprint extractor `getFingerprint` of src/index.tsx lines 79-95
(= `extractFingerprint` of src/index.js lines 49-62 and the linear-banding
`getFingerprint` of src/unnamed/part_000 lines 53-72): 64 bands, per-band
mean of `Math.pow(10, (val + 100) / 20)` over `step = floor(N/64)` bins,
then division of every band by `Math.sqrt(sum of squares) || 1`.
`tenPow` abstracts the transcendental `x ↦ Math.pow(10, x)`; the dB-scaled
input frame is `data`. -/
noncomputable def getFingerprint (tenPow : ℝ → ℝ) (data : List ℝ) : List JsF :=
  let bands := 64
  let step := data.length / bands
  let fingerprint := (List.range bands).map (fun i =>
    jsDivNat (((List.range step).map
      (fun j => tenPow ((data.getD (i * step + j) 0 + 100) / 20))).sum) step)
  let magnitude := jsOr1 (jsSqrt
    (fingerprint.foldl (fun acc v => jsAdd acc (jsSq v)) (.fin 0)))
  fingerprint.map (fun v => jsDivF v magnitude)

lemma foldl_sq_nan (l : List JsF) :
    l.foldl (fun acc v => jsAdd acc (jsSq v)) .nan = .nan := by
  induction l with
  | nil => rfl
  | cons h t ih => simpa [jsAdd] using ih

lemma foldl_sq_fin (l : List ℝ) (a : ℝ) :
    (l.map JsF.fin).foldl (fun acc v => jsAdd acc (jsSq v)) (.fin a) =
      .fin (a + (l.map (fun x => x ^ 2)).sum) := by
  induction l generalizing a with
  | nil => simp
  | cons x t ih =>
      rw [List.map_cons, List.foldl_cons,
        show jsAdd (.fin a) (jsSq (.fin x)) = .fin (a + x * x) from rfl, ih,
        List.map_cons, List.sum_cons]
      exact congrArg JsF.fin (by ring)

lemma list_sum_range_map (f : ℕ → ℝ) (n : ℕ) :
    ((List.range n).map f).sum = ∑ i in Finset.range n, f i := by
  induction n with
  | zero => simp
  | succ m ih => simp [List.range_succ, Finset.sum_range_succ, ih]

/-- On frames with fewer bins than the 64 bands (the empty frame included),
`step = 0`, every band is the JS value `0/0 = NaN`, the magnitude
`Math.sqrt(NaN) || 1` collapses to 1 (NaN is falsy), and the returned
vector is all-NaN. -/
lemma getFingerprint_short (tenPow : ℝ → ℝ) (data : List ℝ)
    (hlen : data.length < 64) :
    getFingerprint tenPow data = List.replicate 64 JsF.nan := by
  have hstep : data.length / 64 = 0 := Nat.div_eq_of_lt hlen
  have hfp : (List.range 64).map (fun i =>
      jsDivNat (((List.range (data.length / 64)).map
        (fun j => tenPow ((data.getD (i * (data.length / 64) + j) 0 + 100) / 20))).sum)
        (data.length / 64)) = List.replicate 64 JsF.nan := by
    rw [List.eq_replicate_iff]
    refine ⟨by simp, ?_⟩
    intro b hb
    rw [List.mem_map] at hb
    obtain ⟨i, -, hi⟩ := hb
    rw [hstep] at hi
    simpa [jsDivNat] using hi.symm
  simp only [getFingerprint, hfp]
  rw [show (List.replicate 64 JsF.nan) = JsF.nan :: List.replicate 63 JsF.nan from rfl]
  simp only [List.foldl_cons]
  rw [show jsAdd (.fin 0) (jsSq .nan) = .nan from rfl, foldl_sq_nan]
  rw [show jsOr1 (jsSqrt .nan) = .fin 1 from rfl]
  simp [jsDivF]

/-- On frames with at least 64 bins, the extractor returns finite values
only (no NaN/Inf): the all-zero vector when every band energy is zero, and
otherwise a vector of exact unit L2 norm (the sum of squared components is
exactly 1). -/
lemma getFingerprint_struct (tenPow : ℝ → ℝ) (data : List ℝ)
    (hpow : ∀ x, 0 ≤ tenPow x) (hlen : 64 ≤ data.length) :
    ∃ l : List ℝ, getFingerprint tenPow data = l.map JsF.fin ∧ l.length = 64 ∧
      (l = List.replicate 64 0 ∨ (l.map (fun x => x ^ 2)).sum = 1) := by
  have hstep : data.length / 64 ≠ 0 := by
    have h1 : 1 ≤ data.length / 64 := (Nat.one_le_div_iff (by norm_num)).mpr hlen
    omega
  set step := data.length / 64 with hstepdef
  set e : ℕ → ℝ := fun i =>
    (((List.range step).map
      (fun j => tenPow ((data.getD (i * step + j) 0 + 100) / 20))).sum) / (step : ℝ)
    with he
  have hband : ∀ i, jsDivNat (((List.range step).map
      (fun j => tenPow ((data.getD (i * step + j) 0 + 100) / 20))).sum) step =
      JsF.fin (e i) := by
    intro i
    simp [jsDivNat, hstep, he]
  have henn : ∀ i, 0 ≤ e i := by
    intro i
    rw [he]
    apply div_nonneg
    · apply List.sum_nonneg
      intro x hx
      rw [List.mem_map] at hx
      obtain ⟨j, -, hj⟩ := hx
      exact hj ▸ hpow _
    · positivity
  have hfp : (List.range 64).map (fun i =>
      jsDivNat (((List.range step).map
        (fun j => tenPow ((data.getD (i * step + j) 0 + 100) / 20))).sum) step) =
      (List.range 64).map (fun i => JsF.fin (e i)) :=
    List.map_congr_left (fun i _ => hband i)
  set S : ℝ := ((List.range 64).map (fun i => e i ^ 2)).sum with hSdef
  have hmagfold : ((List.range 64).map (fun i => JsF.fin (e i))).foldl
      (fun acc v => jsAdd acc (jsSq v)) (.fin 0) = .fin (0 + S) := by
    have h := foldl_sq_fin ((List.range 64).map e) 0
    rw [List.map_map, List.map_map] at h
    simpa [Function.comp, hSdef] using h
  have hSnn : 0 ≤ S := by
    rw [hSdef]
    apply List.sum_nonneg
    intro x hx
    rw [List.mem_map] at hx
    obtain ⟨i, -, hi⟩ := hx
    exact hi ▸ sq_nonneg _
  by_cases hS : S = 0
  · have hSsum : ∑ i in Finset.range 64, e i ^ 2 = 0 := by
      rw [← list_sum_range_map]
      exact hS
    have hzero : ∀ i ∈ Finset.range 64, e i = 0 := by
      intro i hi
      have h2 := (Finset.sum_eq_zero_iff_of_nonneg
        (fun i _ => sq_nonneg (e i))).mp hSsum i hi
      exact (pow_eq_zero_iff (by norm_num)).mp h2
    refine ⟨(List.range 64).map e, ?_, by simp, Or.inl ?_⟩
    · simp only [getFingerprint]
      rw [← hstepdef, hfp, hmagfold, zero_add, hS]
      rw [show jsSqrt (.fin 0) = .fin 0 by simp [jsSqrt]]
      rw [show jsOr1 (.fin 0) = .fin 1 by simp [jsOr1]]
      rw [List.map_map, List.map_map]
      apply List.map_congr_left
      intro i _
      simp [jsDivF, Function.comp]
    · rw [List.eq_replicate_iff]
      refine ⟨by simp, ?_⟩
      intro b hb
      rw [List.mem_map] at hb
      obtain ⟨i, hi, rfl⟩ := hb
      exact hzero i (by simpa using hi)
  · have hSpos : 0 < S := lt_of_le_of_ne hSnn (Ne.symm hS)
    have hsqrt : Real.sqrt S ≠ 0 := ne_of_gt (Real.sqrt_pos.mpr hSpos)
    refine ⟨(List.range 64).map (fun i => e i / Real.sqrt S), ?_, by simp, Or.inr ?_⟩
    · simp only [getFingerprint]
      rw [← hstepdef, hfp, hmagfold, zero_add]
      rw [show jsSqrt (.fin S) = .fin (Real.sqrt S) by
        simp [jsSqrt, not_lt.mpr hSnn]]
      rw [show jsOr1 (.fin (Real.sqrt S)) = .fin (Real.sqrt S) by
        simp [jsOr1, hsqrt]]
      rw [List.map_map, List.map_map]
      apply List.map_congr_left
      intro i _
      simp [jsDivF, Function.comp, hsqrt]
    · rw [List.map_map]
      have hcong : (List.range 64).map ((fun x => x ^ 2) ∘ fun i => e i / Real.sqrt S) =
          (List.range 64).map (fun i => e i ^ 2 / S) := by
        apply List.map_congr_left
        intro i _
        simp only [Function.comp]
        rw [div_pow, Real.sq_sqrt hSnn]
      rw [hcong, list_sum_range_map, ← Finset.sum_div, ← list_sum_range_map, ← hSdef,
        div_self hS]

/-- Claim C4 counterexample: on the empty frame (and likewise on any frame
with fewer bins than the 64 bands), `step = floor(0/64) = 0`, each band is
the JS value `0/0 = NaN`, and the extractor returns a vector all of whose
64 components are NaN — contradicting the claim that no component is ever
NaN for every input frame including empty and short ones. -/
theorem claim_C4_empty_frame_nan_cx :
    getFingerprint (fun x => x) [] = List.replicate 64 JsF.nan ∧
      JsF.nan ∈ getFingerprint (fun x => x) [] := by
  have h := getFingerprint_short (fun x => x) [] (by simp)
  exact ⟨h, by rw [h]; simp⟩

/-- Claim C4 (amended): on every frame with at least 64 bins — which every
real analyser frame has (`frequencyBinCount = fftSize/2 ≥ 1024`) — and for
every nonnegative dB-to-linear conversion, the extractor returns only
finite components (never NaN/Inf): the exact all-zero vector when every
band energy is zero, and otherwise a vector whose L2 norm is exactly 1
(sum of squared components equal to 1, hence within the claimed ±1e-6).
On frames with fewer than 64 bins the result is instead all-NaN
(`claim_C4_empty_frame_nan_cx`). -/
theorem claim_C4_unit_norm_or_zero :
    ∀ (tenPow : ℝ → ℝ) (data : List ℝ), (∀ x, 0 ≤ tenPow x) →
      64 ≤ data.length →
      ∃ l : List ℝ, getFingerprint tenPow data = l.map JsF.fin ∧
        (l = List.replicate 64 0 ∨ (l.map (fun x => x ^ 2)).sum = 1) := by
  intro tenPow data hpow hlen
  obtain ⟨l, h1, -, h3⟩ := getFingerprint_struct tenPow data hpow hlen
  exact ⟨l, h1, h3⟩

theorem claim_C4_unit_norm_or_zero_witness :
    ∃ l : List ℝ, getFingerprint (fun _ => 0) (List.replicate 64 0) = l.map JsF.fin ∧
      (l = List.replicate 64 0 ∨ (l.map (fun x => x ^ 2)).sum = 1) :=
  claim_C4_unit_norm_or_zero (fun _ => 0) (List.replicate 64 0)
    (fun _ => le_refl 0) (by simp)

set_option linter.unusedVariables false in
/-- The `getFingerprintFromBuffer` of src/unnamed/part_000 lines 74-86: the
decoded channel data is inspected (a window position is computed) but the
returned "fingerprint" is `new Array(64).fill(0).map(() => Math.random())`
— 64 fresh pseudo-random draws, modelled by the stream `rand` consumed in
call order; the decoded samples contribute nothing to the result. -/
def getFingerprintFromBuffer (rand : ℕ → ℝ) (channelData : List ℝ) : List ℝ :=
  (List.range 64).map rand

/-- Claim C6 (code bug): the file-based capture path of src/unnamed/part_000
lines 74-86 does not apply the live extraction pipeline.  With the random
stream constantly 1/2, the stored reference is [0.5, …, 0.5] (sum of squares
16), which differs from `getFingerprint` applied to every spectral frame
whatsoever (those are all-NaN, all-zero, or of exact unit norm) for every
nonnegative dB-to-linear conversion.  (The src/index.js
`extractFingerprintFromBuffer` likewise bypasses the spectral pipeline,
summing raw time-domain amplitudes instead.) -/
theorem claim_C6_random_buffer_diverges :
    ∀ (tenPow : ℝ → ℝ) (buffer frame : List ℝ), (∀ x, 0 ≤ tenPow x) →
      (getFingerprintFromBuffer (fun _ => 1/2) buffer).map JsF.fin ≠
        getFingerprint tenPow frame := by
  intro tenPow buffer frame hpow heq
  have hlhs : (getFingerprintFromBuffer (fun _ => 1/2) buffer).map JsF.fin =
      List.replicate 64 (JsF.fin (1/2)) := by
    rw [getFingerprintFromBuffer, List.map_map, List.eq_replicate_iff]
    refine ⟨by simp, ?_⟩
    intro b hb
    rw [List.mem_map] at hb
    obtain ⟨i, -, hi⟩ := hb
    simpa [Function.comp] using hi.symm
  by_cases hlen : 64 ≤ frame.length
  · obtain ⟨l, h1, h2, h3⟩ := getFingerprint_struct tenPow frame hpow hlen
    rw [hlhs, h1] at heq
    have hl : l = List.replicate 64 (1/2 : ℝ) := by
      have hinj : Function.Injective JsF.fin := fun a b h => by
        injection h
      apply List.map_injective_iff.mpr hinj
      rw [← heq]
      simp [List.map_replicate]
    rcases h3 with h3 | h3
    · rw [hl] at h3
      have := List.replicate_right_injective (n := 64) (by norm_num) h3
      norm_num at this
    · rw [hl] at h3
      simp [List.map_replicate, List.sum_replicate] at h3
      norm_num at h3
  · rw [getFingerprint_short tenPow frame (by omega), hlhs] at heq
    have := List.replicate_right_injective (n := 64) (by norm_num) heq
    exact JsF.noConfusion this

theorem claim_C6_random_buffer_diverges_witness :
    (getFingerprintFromBuffer (fun _ => 1/2) []).map JsF.fin ≠
      getFingerprint (fun _ => 0) [] :=
  claim_C6_random_buffer_diverges (fun _ => 0) [] [] (fun _ => le_refl 0)

/-! ## Reference store and settings persistence -/

/-- The app settings record persisted to localStorage
(src/App.tsx lines 27-35: threshold, haWebhookUrl, cooldownSeconds,
referenceFingerprint). -/
structure AppSettings where
  threshold : ℚ
  haWebhookUrl : String
  cooldownSeconds : ℚ
  referenceFingerprint : Option (List ℚ)
deriving DecidableEq

/-- The reference capture of src/App.tsx `captureReference` (lines 601-618)
and src/index.tsx `recordSample` (lines 237-250): the freshly extracted
fingerprint replaces the stored reference via
`setSettings(prev => ({ ...prev, referenceFingerprint: fingerprint }))`,
all other fields untouched. -/
def captureReference (s : AppSettings) (fingerprint : List ℚ) : AppSettings :=
  { s with referenceFingerprint := some fingerprint }

/-- Claim C7: after two captures in sequence the settings hold exactly the
second capture's fingerprint as the reference, with every other field as
before; the first capture's fingerprint contributes nothing (replacement is
total — no merging or averaging). -/
theorem claim_C7_second_capture_replaces_totally :
    ∀ (s : AppSettings) (fp1 fp2 : List ℚ),
      captureReference (captureReference s fp1) fp2 =
        { s with referenceFingerprint := some fp2 } := by
  intro s fp1 fp2
  rfl

/-- The file-upload handler of src/App.tsx `handleFileUpload`
(lines 620-637) and src/index.js (lines 256-268): the decode of the
uploaded waveform either yields a fingerprint (stored by total replacement)
or throws, in which case the `catch` branch reports the error (alert/log)
and `setSettings` is never called.  Returns the resulting settings and the
optionally reported error. -/
def handleFileUpload (s : AppSettings) (decoded : Except String (List ℚ)) :
    AppSettings × Option String :=
  match decoded with
  | .ok fp => ({ s with referenceFingerprint := some fp }, none)
  | .error e => (s, some e)

/-- Claim C8: a failed decode of an uploaded waveform reports the failure
for that call and leaves the settings — in particular any existing
reference fingerprint — completely unchanged. -/
theorem claim_C8_decode_failure_leaves_reference :
    ∀ (s : AppSettings) (e : String),
      handleFileUpload s (.error e) = (s, some e) := by
  intro s e
  rfl

/-- A JSON value, the tree form shared by `JSON.stringify` and
`JSON.parse` in the persistence effect (src/App.tsx lines 27-35 and
68-70). -/
inductive Json where
  | null : Json
  | num : ℚ → Json
  | str : String → Json
  | arr : List Json → Json
  | obj : List (String × Json) → Json

/-- Serialization of the optional reference fingerprint: `null` or the
JSON array of its numbers. -/
def encodeFingerprint : Option (List ℚ) → Json
  | none => .null
  | some fp => .arr (fp.map .num)

def decodeNums : List Json → Option (List ℚ)
  | [] => some []
  | .num q :: rest => (decodeNums rest).map (fun l => q :: l)
  | _ => none

def decodeFingerprint : Json → Option (Option (List ℚ))
  | .null => some none
  | .arr xs => (decodeNums xs).map some
  | _ => none

/-- `JSON.stringify(settings)` as the JSON tree it serializes. -/
def encodeSettings (s : AppSettings) : Json :=
  .obj [("threshold", .num s.threshold),
        ("haWebhookUrl", .str s.haWebhookUrl),
        ("cooldownSeconds", .num s.cooldownSeconds),
        ("referenceFingerprint", encodeFingerprint s.referenceFingerprint)]

def lookupField (fields : List (String × Json)) (k : String) : Option Json :=
  (fields.find? (fun p => p.1 == k)).map Prod.snd

/-- `JSON.parse` of a settings blob back into the settings record. -/
def decodeSettings (j : Json) : Option AppSettings :=
  match j with
  | .obj fields =>
      match lookupField fields ("threshold"), lookupField fields ("haWebhookUrl"),
          lookupField fields ("cooldownSeconds"),
          lookupField fields ("referenceFingerprint") with
      | some (.num th), some (.str url), some (.num cd), some fpj =>
          (decodeFingerprint fpj).map (fun fp => ⟨th, url, cd, fp⟩)
      | _, _, _, _ => none
  | _ => none

lemma decodeNums_encode (fp : List ℚ) : decodeNums (fp.map .num) = some fp := by
  induction fp with
  | nil => rfl
  | cons q rest ih => simp [decodeNums, ih]

lemma decodeFingerprint_encode (r : Option (List ℚ)) :
    decodeFingerprint (encodeFingerprint r) = some r := by
  cases r with
  | none => rfl
  | some fp => simp [encodeFingerprint, decodeFingerprint, decodeNums_encode]

/-- The threshold direction of the spec's unified DetectionConfig. -/
inductive ThresholdDirection where
  | matchBelow : ThresholdDirection
  | matchAbove : ThresholdDirection
deriving DecidableEq

/-- Modelled from the spec: the unified configuration persistence blob of
section 6, `{ threshold, thresholdDirection, cooldownMs,
referenceFingerprint }`.  The `thresholdDirection` field has no counterpart
anywhere in the code — each source variant hard-codes its match direction —
so this blob and its serialization are taken from the spec's words. -/
structure ConfigBlob where
  threshold : ℚ
  cooldownMs : ℤ
  thresholdDirection : ThresholdDirection
  referenceFingerprint : Option (List ℚ)
deriving DecidableEq

def encodeDirection : ThresholdDirection → Json
  | .matchBelow => .str "MatchBelow"
  | .matchAbove => .str "MatchAbove"

def decodeDirection : Json → Option ThresholdDirection
  | .str s =>
      if s = "MatchBelow" then some .matchBelow
      else if s = "MatchAbove" then some .matchAbove
      else none
  | _ => none

def encodeBlob (b : ConfigBlob) : Json :=
  .obj [("threshold", .num b.threshold),
        ("cooldownMs", .num (b.cooldownMs : ℚ)),
        ("thresholdDirection", encodeDirection b.thresholdDirection),
        ("referenceFingerprint", encodeFingerprint b.referenceFingerprint)]

def decodeBlob (j : Json) : Option ConfigBlob :=
  match j with
  | .obj fields =>
      match lookupField fields ("threshold"), lookupField fields ("cooldownMs"),
          lookupField fields ("thresholdDirection"),
          lookupField fields ("referenceFingerprint") with
      | some (.num th), some (.num cd), some dirj, some fpj =>
          match decodeDirection dirj, decodeFingerprint fpj with
          | some dir, some fp =>
              if cd.den = 1 then some ⟨th, cd.num, dir, fp⟩ else none
          | _, _ => none
      | _, _, _, _ => none
  | _ => none

lemma decodeDirection_encode (d : ThresholdDirection) :
    decodeDirection (encodeDirection d) = some d := by
  cases d <;> rfl

/-- Claim C9: writing the configuration blob and reloading it is the
identity — on the code's own settings record (threshold, cooldownSeconds,
referenceFingerprint, plus haWebhookUrl), and on the spec's unified blob
that additionally carries thresholdDirection and cooldownMs. -/
theorem claim_C9_persistence_roundtrip :
    (∀ s : AppSettings, decodeSettings (encodeSettings s) = some s) ∧
    (∀ b : ConfigBlob, decodeBlob (encodeBlob b) = some b) := by
  constructor
  · intro s
    simp [encodeSettings, decodeSettings, lookupField, List.find?,
      decodeFingerprint_encode]
  · intro b
    simp [encodeBlob, decodeBlob, lookupField, List.find?,
      decodeFingerprint_encode, decodeDirection_encode]

end AudioMeter
